import Mathlib

/-!
Shallow embedding of the krx-auto-crawling repository's core logic, and
proofs about it.

The embedding covers:
* `src/core/components/krx_processor.py` (the Standardizer),
* `src/core/pipelines/daily_krx_net_value_pipeline.py` (the pipeline run loop),
* `src/infra/adapters/excel_master_report_adapter.py` together with
  `src/core/services/master_data_service.py` (the ledger update and pivot),
* `src/core/services/ranking_analysis_service.py` (the ranking snapshot and
  common-stock computation).

Machine-level details that the claims do not touch (spreadsheet styling
colours, column widths, I/O failures of the storage backend) are modelled
only as far as the control flow of the source depends on them.
-/

namespace Krx

/-! ### Cells and tables (pandas DataFrame model)

A parsed spreadsheet cell is either numeric or textual.  A `Table` is a
header row plus data rows, the shallow model of a `pandas.DataFrame`. -/

/-- A spreadsheet cell value: numeric or textual. -/
inductive CellV
  | num (n : Int)
  | str (s : String)
deriving DecidableEq, Repr

/-- Whether a cell is numeric (numeric dtype in pandas). -/
def CellV.isNum : CellV → Bool
  | .num _ => true
  | .str _ => false

/-- Numeric sort key of a cell.  The sorting code of the repository only ever
sorts columns whose cells are all numeric; textual cells are given key 0 so
that the function stays total. -/
def CellV.key : CellV → Int
  | .num n => n
  | .str _ => 0

/-- A parsed table: ordered column headers and data rows. -/
structure Table where
  headers : List String
  rows : List (List CellV)
deriving DecidableEq, Repr

/-- The empty table, model of `pd.DataFrame()`. -/
def emptyTable : Table := ⟨[], []⟩

/-- Substring test on character lists: `pat` occurs contiguously in `s`
(Python `pat in s`). -/
def charsContain (s pat : List Char) : Bool :=
  (List.range (s.length + 1)).any (fun i => pat.isPrefixOf (s.drop i))

/-! ### Standardizer: `process_krx_net_value_excel` (krx_processor.py lines 41-74)

The byte-level parsing (lines 26-39) is an external concern; the embedding
starts from the parsed table.  Empty/unparseable payloads yield the empty
table before this logic runs. -/

/-- `NET_VALUE_KEYWORDS` of krx_processor.py line 43. -/
def NET_VALUE_KEYWORDS : List String := ["순매수", "거래대금"]

/-- Line 46: `all(keyword in str(col).lower() for keyword in NET_VALUE_KEYWORDS)`. -/
def headerMatches (h : String) : Bool :=
  NET_VALUE_KEYWORDS.all (fun k => charsContain (h.data.map Char.toLower) k.data)

/-- Index of a header inside the table's header list. -/
def Table.colIdx (t : Table) (h : String) : Nat := t.headers.indexOf h

/-- The cell of `row` under header `h` (reads past-the-end as an empty
text cell, which only happens for malformed rows). -/
def Table.cellAt (t : Table) (row : List CellV) (h : String) : CellV :=
  row.getD (t.colIdx h) (.str "")

/-- pandas numeric dtype for a column: every cell of the column is numeric
and the table has at least one row (a zero-row frame gets object dtype). -/
def Table.isNumericCol (t : Table) (h : String) : Bool :=
  !t.rows.isEmpty && t.rows.all (fun r => (t.cellAt r h).isNum)

/-- Lines 42-58: the value-column detection.  First header containing all
keywords; otherwise the last numeric column
(`df.select_dtypes(include=['number']).columns[-1]`); otherwise `none`. -/
def findSortCol (t : Table) : Option String :=
  match t.headers.find? headerMatches with
  | some c => some c
  | none => (t.headers.filter (t.isNumericCol)).getLast?

/-- Sort key of a row for the detected value column. -/
def sortKey (t : Table) (c : String) (row : List CellV) : Int := (t.cellAt row c).key

/-- Model of `df.sort_values(by=c, ascending=False)` (line 66).  pandas
uses its default `kind='quicksort'` (numpy introsort), which is NOT
guaranteed stable, so the order among rows with equal keys is
implementation-defined on real input sizes.  A deterministic model must
pick some kernel; this one uses an insertion sort.  Theorems about the
Standardizer therefore rely only on kernel-independent facts — the result
is a permutation of the rows, sorted descending by the key — never on the
tie order of this particular kernel. -/
def sortRowsDesc (t : Table) (c : String) : List (List CellV) :=
  t.rows.insertionSort (fun r1 r2 => sortKey t c r2 ≤ sortKey t c r1)

/-- Output projection of lines 70-72: keep `종목코드`, `종목명` and the value
column (renamed `순매수_거래대금`). -/
def projRow (t : Table) (c : String) (row : List CellV) : List CellV :=
  [t.cellAt row "종목코드", t.cellAt row "종목명", t.cellAt row c]

/-- krx_processor.py lines 41-74 on the parsed table: detect the value
column, check the required columns, sort descending, take the top 20 and
project.  Failures return the empty table, exactly as the source returns
`pd.DataFrame()` on each failure branch. -/
def process_krx_net_value_excel (t : Table) : Table :=
  match findSortCol t with
  | none => emptyTable
  | some c =>
    if "종목코드" ∈ t.headers ∧ "종목명" ∈ t.headers ∧ c ∈ t.headers then
      ⟨["종목코드", "종목명", "순매수_거래대금"],
        ((sortRowsDesc t c).take 20).map (projRow t c)⟩
    else emptyTable

/-- Value cell of an output row of the Standardizer (its third column,
`순매수_거래대금`), as a numeric key. -/
def outVal (row : List CellV) : Int := (row.getD 2 (.str "")).key

/-- The spec's Standardizer scenario payload exactly as written: headers
`["종목명", "거래대금_순매수"]` and rows A 300, B 900, C 900. -/
def scenarioGiven : Table :=
  ⟨["종목명", "거래대금_순매수"],
   [[.str "A", .num 300], [.str "B", .num 900], [.str "C", .num 900]]⟩

/-- The scenario payload extended with the `종목코드` column that
`process_krx_net_value_excel` requires. -/
def scenarioWithCode : Table :=
  ⟨["종목코드", "종목명", "거래대금_순매수"],
   [[.str "001", .str "A", .num 300],
    [.str "002", .str "B", .num 900],
    [.str "003", .str "C", .num 900]]⟩

/-- A table whose second header carries both detection keywords. -/
def tblKeyword : Table :=
  ⟨["이름", "전체 순매수 거래대금", "기타"], [[.str "x", .num 1, .num 2]]⟩

/-- A table with no keyword header whose last entirely-numeric column is
`가격`. -/
def tblNumericFallback : Table :=
  ⟨["종목명", "가격", "비고"], [[.str "x", .num 5, .str "메모"]]⟩

/-- A table with no keyword header and no numeric column at all. -/
def tblNoNumeric : Table := ⟨["a", "b"], [[.str "x", .str "y"]]⟩

/-! ### Pipeline engine: `DailyKrxNetValuePipeline.run` (lines 144-175)

The run loop threads one shared `context` dictionary through an ordered
task list: each task's returned dictionary is merged by `context.update`,
then the merged `status` is inspected. -/

/-- A context value.  The run loop only ever inspects string values (the
`status` and `message` keys); every other payload is opaque. -/
inductive CtxV
  | str (s : String)
  | payload (n : Nat)
deriving DecidableEq, Repr

/-- The shared pipeline context: an insertion-ordered string-keyed
dictionary (a Python `dict`). -/
abbrev Ctx := List (String × CtxV)

/-- Dictionary assignment `d[k] = v`: overwrite in place when the key
exists, else append (Python dicts preserve insertion order). -/
def setKey (c : Ctx) (k : String) (v : CtxV) : Ctx :=
  if c.any (fun p => p.1 == k) then
    c.map (fun p => if p.1 == k then (k, v) else p)
  else c ++ [(k, v)]

/-- `context.update(task_output)` of line 157. -/
def updateCtx (c u : Ctx) : Ctx :=
  u.foldl (fun acc p => setKey acc p.1 p.2) c

/-- `context.get(k)`: the value stored under the first (and in a real
dict, only) occurrence of `k`. -/
def getKey : Ctx → String → Option CtxV
  | [], _ => none
  | p :: m, k => if p.1 == k then some p.2 else getKey m k

/-- A task's `execute`: an output dictionary, or a raised exception
carried as its message. -/
def Task := Ctx → Except String Ctx

/-- Lines 160-161: `task_status in ('error', 'skipped')`, checked on the
merged context.  A non-string status never equals either literal. -/
def haltStatus (c : Ctx) : Bool :=
  match getKey c "status" with
  | some (.str s) => s == "error" || s == "skipped"
  | _ => false

/-- `DailyKrxNetValuePipeline.run` lines 149-170: run each task on the
current context, merge its output, stop as soon as the merged status is
`error` or `skipped`; a raised exception merges
`status = critical_error` plus the message and stops. -/
def runSteps : List Task → Ctx → Ctx
  | [], c => c
  | t :: ts, c =>
    match t c with
    | .error e =>
        updateCtx c [("status", .str "critical_error"), ("message", .str e)]
    | .ok out =>
        let c2 := updateCtx c out
        if haltStatus c2 then c2 else runSteps ts c2

/-- A task that reports `critical_error` through its returned status
dictionary (not by raising). -/
def taskCriticalStatus : Task := fun _ => .ok [("status", .str "critical_error")]

/-- A task that reports `error` through its returned status dictionary. -/
def taskErrorStatus : Task := fun _ => .ok [("status", .str "error")]

/-- A marker task recording that it ran. -/
def taskMarker : Task :=
  fun _ => .ok [("ran_after", .str "yes"), ("status", .str "success")]

/-- A task returning a dictionary with no `status` key at all. -/
def taskNoStatus : Task := fun _ => .ok [("data", .payload 1)]

/-- A task that raises. -/
def taskRaises : Task := fun _ => .error "boom"

/-! ### Ledger engine: `ExcelMasterAdapter.update_report` and the pivot

The adapter updates one Excel file per report key.  A file is a list of
named sheets; a sheet is either a month's raw-row sheet (rows
`(일자, 종목, 금액)` under a 2-row header) or a day's pivot sheet.
Styling (fills, fonts, column widths) is a deterministic function of the
same data and is not part of the content model. -/

/-- One raw ledger row `(일자, 종목, 금액)`.  The amount is a cell value:
freshly appended rows carry numbers, rows loaded from an old file may
carry text such as `"1,234,000"`. -/
structure LRow where
  date : Int
  sym : String
  amt : CellV
deriving DecidableEq, Repr

/-- `astype(str).str.replace(r'[^0-9.-]', '', regex=True)`: keep only
digits, minus and dot. -/
def cleanChars (s : String) : List Char :=
  s.data.filter (fun ch => ch.isDigit || ch == '-' || ch == '.')

/-- Value of a plain digit run. -/
def digitsVal (cs : List Char) : Int :=
  cs.foldl (fun a ch => a * 10 + ((ch.toNat : Int) - 48)) 0

/-- `pd.to_numeric(..., errors='coerce')` then `.fillna(0)` on the cleaned
characters: an optional minus, a digit run, optionally a dot and a
fractional digit run; everything else (and the empty string, via
`.replace('', 0)`) coerces to 0.  The ledger amounts are integral, so the
model truncates any fractional digits. -/
def parseCleaned (cs : List Char) : Int :=
  let sign : Bool := match cs with
    | '-' :: _ => true
    | _ => false
  let body := if sign then cs.drop 1 else cs
  let intPart := body.takeWhile (fun ch => ch != '.')
  let rest := body.drop intPart.length
  let fracOk : Bool := match rest with
    | [] => true
    | '.' :: fr => fr.all Char.isDigit
    | _ => false
  if body ≠ [] ∧ intPart.all Char.isDigit ∧ fracOk = true
      ∧ (intPart ≠ [] ∨ rest.length > 1)
  then (if sign then -(digitsVal intPart) else digitsVal intPart)
  else 0

/-- The numeric coercion applied to the `금액` column before pivoting
(adapter lines 155-164, `MasterDataService.calculate_pivot` lines
117-120): numbers pass through (`astype(str)` then cleaning is the
identity on them), text is cleaned and parsed, unparsable text becomes 0. -/
def coerceAmt : CellV → Int
  | .num n => n
  | .str s => parseCleaned (cleanChars s)

/-- Code-point lexicographic order on strings (Python string order), as a
kernel-computable Boolean. -/
def charListLe : List Char → List Char → Bool
  | [], _ => true
  | _ :: _, [] => false
  | a :: as, b :: bs => if a < b then true else if b < a then false else charListLe as bs

/-- One pivot row: symbol, per-date cells (`none` where the symbol has no
row for that date — pandas `NaN`), and the `총계` running total. -/
structure PivotEntry where
  sym : String
  cells : List (Option Int)
  total : Int
deriving DecidableEq, Repr

/-- The distinct dates of the rows, ascending: the pivot's column order
(`pd.pivot_table` sorts its column labels). -/
def pivotDates (rows : List LRow) : List Int :=
  ((rows.map (fun r => r.date)).dedup).insertionSort (fun a b => a ≤ b)

/-- The distinct symbols, ascending: the pivot's index order before the
total sort (`pd.pivot_table` sorts its group keys). -/
def pivotSyms (rows : List LRow) : List String :=
  ((rows.map (fun r => r.sym)).dedup).insertionSort
    (fun a b => charListLe a.data b.data = true)

/-- Sum of the coerced amounts of symbol `s` at date `d`
(`aggfunc='sum'`). -/
def cellSum (rows : List LRow) (s : String) (d : Int) : Int :=
  ((rows.filter (fun r => r.sym == s && r.date == d)).map
    (fun r => coerceAmt r.amt)).sum

/-- Whether symbol `s` has any row at date `d` (otherwise the pivot cell
is `NaN`). -/
def hasCell (rows : List LRow) (s : String) (d : Int) : Bool :=
  rows.any (fun r => r.sym == s && r.date == d)

/-- The pivot row of symbol `s`: one cell per date, and the `총계` total
(`pivot.sum(axis=1)` skips the `NaN` cells, hence `getD 0`). -/
def mkEntry (rows : List LRow) (dates : List Int) (s : String) : PivotEntry :=
  let cells := dates.map
    (fun d => if hasCell rows s d then some (cellSum rows s d) else none)
  ⟨s, cells, (cells.map (fun c => c.getD 0)).sum⟩

/-- `MasterDataService.calculate_pivot` (master_data_service.py lines
96-140), the same computation the adapter inlines at
excel_master_report_adapter.py lines 150-186: coerce the amounts, pivot
by `종목` × `일자` with sum, add the `총계` row total, sort by it
descending (stable).  Empty input yields the empty pivot. -/
def calculate_pivot (rows : List LRow) : List PivotEntry :=
  if rows.isEmpty then []
  else
    ((pivotSyms rows).map (mkEntry rows (pivotDates rows))).insertionSort
      (fun p q => q.total ≤ p.total)

/-- A sheet of a master ledger document. -/
inductive MSheet
  | rawSheet (rows : List LRow)
  | pivotSheet (entries : List PivotEntry)
deriving DecidableEq, Repr

/-- A master ledger document: its ordered named sheets (an openpyxl
workbook). -/
abbrev Workbook := List (String × MSheet)

/-- The persisted state of one master report file; `none` when the file
does not exist yet. -/
structure MState where
  file : Option Workbook
deriving DecidableEq, Repr

/-- The keys of the adapter's `file_map` (lines 36-41). -/
def fileMapKeys : List String :=
  ["KOSPI_foreigner", "KOSDAQ_foreigner", "KOSPI_institutions",
   "KOSDAQ_institutions"]

/-- `report_date.strftime('%b').upper()`: the month sheet name. -/
def monthAbbrev : Nat → String
  | 1 => "JAN"
  | 2 => "FEB"
  | 3 => "MAR"
  | 4 => "APR"
  | 5 => "MAY"
  | 6 => "JUN"
  | 7 => "JUL"
  | 8 => "AUG"
  | 9 => "SEP"
  | 10 => "OCT"
  | 11 => "NOV"
  | 12 => "DEC"
  | _ => "MUNK"

/-- A calendar date (year, month, day). -/
structure RDate where
  y : Nat
  m : Nat
  d : Nat
deriving DecidableEq, Repr

/-- Two-digit zero padding (strftime `%m` / `%d`). -/
def pad2 (n : Nat) : String := if n < 10 then "0" ++ toString n else toString n

/-- The raw-row sheet name of the date's month (line 58). -/
def sheetName (dt : RDate) : String := monthAbbrev dt.m

/-- The pivot sheet name `MMDD` (line 59). -/
def pivotSheetName (dt : RDate) : String := pad2 dt.m ++ pad2 dt.d

/-- `int(report_date.strftime('%Y%m%d'))` (lines 61-62). -/
def dateInt (dt : RDate) : Int := ((dt.y * 10000 + dt.m * 100 + dt.d : Nat) : Int)

/-- The sheet of the workbook carrying the given name (`book[name]`;
names are unique in a real workbook, so the first match is the sheet). -/
def lookupSheet (wb : Workbook) (name : String) : Option MSheet :=
  (wb.find? (fun s => s.1 == name)).map Prod.snd

/-- `book.sheetnames`. -/
def sheetNames (wb : Workbook) : List String := wb.map Prod.fst

/-- `list.insert(i, x)` on the sheet list (`create_sheet(title, index)`
for a non-negative index). -/
def insertSheetAt (wb : Workbook) (i : Nat) (x : String × MSheet) : Workbook :=
  wb.take i ++ [x] ++ wb.drop i

/-- Lines 231-241: place the freshly built pivot sheet just before the
month sheet; when the month sheet is absent the code passes Python index
`-1`, i.e. `list.insert(-1, x)`: before the last sheet, or as the only
sheet of an empty book. -/
def placePivot (book2 : Workbook) (sName : String) (x : String × MSheet) :
    Workbook :=
  match book2.findIdx? (fun s => s.1 == sName) with
  | some i => insertSheetAt book2 i x
  | none =>
      if book2.isEmpty then [x]
      else insertSheetAt book2 (book2.length - 1) x

/-- The full update path of `ExcelMasterAdapter.update_report` (lines
92-315), reached when the fast-skip did not fire: translate the day's
rows (lines 92-104), load the month sheet (lines 106-132), drop the new
rows if the date is already present (lines 134-138), compute the pivot of
the merged data (lines 143-186), then write: append the new rows to the
month sheet or create it just before the last sheet (lines 200-221),
delete any existing pivot sheet and create the fresh one just before the
month sheet — or, when the month sheet is absent (only possible with no
new rows), at Python index `-1`, i.e. before the last sheet (lines
223-241). -/
def fullUpdateBook (daily : List (String × Int)) (dt : RDate)
    (wbOpt : Option Workbook) : Workbook :=
  let pName := pivotSheetName dt
  let sName := sheetName dt
  let newRows := daily.map (fun p => LRow.mk (dateInt dt) p.1 (.num p.2))
  let loaded : Bool × List LRow := match wbOpt with
    | none => (false, [])
    | some wb => match lookupSheet wb sName with
      | some (.rawSheet rs) => (true, rs)
      | some (.pivotSheet _) => (true, [])
      | none => (false, [])
  let sheetExists := loaded.1
  let existing := loaded.2
  let toAppend := if dateInt dt ∈ existing.map (fun r => r.date) then [] else newRows
  let fullData := existing ++ toAppend
  let pivotE := calculate_pivot fullData
  let book0 := match wbOpt with
    | some wb => wb
    | none => []
  let book1 :=
    if toAppend.isEmpty then book0
    else if sheetExists then
      book0.map (fun s =>
        if s.1 == sName then
          match s.2 with
          | .rawSheet rs => (s.1, MSheet.rawSheet (rs ++ toAppend))
          | other => (s.1, other)
        else s)
    else
      insertSheetAt book0 (book0.length - 1) (sName, .rawSheet toAppend)
  let book2 := book1.eraseP (fun s => s.1 == pName)
  placePivot book2 sName (pName, .pivotSheet pivotE)

/-- `ExcelMasterAdapter.update_report` (lines 43-319) as a transition on
the persisted state of the one file belonging to `report_key`: unknown
report keys fail without touching the state (lines 50-53); if the file
already contains the `MMDD` pivot sheet the call fast-skips, returning
success and leaving the state untouched (lines 67-86); otherwise the full
update runs and the rewritten workbook is saved (line 310). -/
def update_report (report_key : String) (daily : List (String × Int))
    (dt : RDate) (st : MState) : Bool × MState :=
  if report_key ∉ fileMapKeys then (false, st)
  else
    match st.file with
    | some wb =>
        if pivotSheetName dt ∈ sheetNames wb then (true, st)
        else (true, ⟨some (fullUpdateBook daily dt (some wb))⟩)
    | none => (true, ⟨some (fullUpdateBook daily dt none)⟩)

/-- A stored pivot ranking one symbol X. -/
def pivotA : List PivotEntry := [⟨"X", [some 5], 5⟩]

/-- A different stored pivot ranking one symbol Y. -/
def pivotB : List PivotEntry := [⟨"Y", [some 7], 7⟩]

/-- A file state whose 2025-01-02 pivot sheet stores `pivotA`. -/
def stA : MState :=
  ⟨some [("0102", .pivotSheet pivotA),
         ("JAN", .rawSheet [⟨20250102, "X", .num 5⟩])]⟩

/-- A file state whose 2025-01-02 pivot sheet stores `pivotB`. -/
def stB : MState :=
  ⟨some [("0102", .pivotSheet pivotB),
         ("JAN", .rawSheet [⟨20250102, "Y", .num 7⟩])]⟩

/-- A file whose raw sheet already carries 2025-01-02 while the stored
pivot sheet for that date is stale (empty). -/
def staleSt : MState :=
  ⟨some [("0102", .pivotSheet []),
         ("JAN", .rawSheet [⟨20250102, "A", .num 5⟩])]⟩

/-- A file whose raw sheet already carries 2025-01-02 and which has no
pivot sheet for that date yet (a stale/missing derived view). -/
def healSt : MState :=
  ⟨some [("JAN", .rawSheet [⟨20250102, "A", .num 5⟩]),
         ("TOTAL", .rawSheet [])]⟩

/-- A small two-symbol, two-date ledger, with one textual amount. -/
def sampleLedgerRows : List LRow :=
  [⟨20250101, "A", .num 5⟩, ⟨20250101, "B", .num 3⟩,
   ⟨20250102, "A", .str "1,200"⟩]

/-! ### Ranking analysis: `RankingAnalysisService` (ranking_analysis_service.py)

`calculate_common_stocks` intersects the top-20 name sets of the two
investor classes per market; `_execute_update` clones the last snapshot
sheet into a sheet keyed by the date and rewrites its fixed regions. -/

/-- A standardized per-category frame as the ranking service consumes it:
ordered (종목명, 순매수_거래대금) rows. -/
abbrev Frame := List (String × Int)

/-- `set(df.head(self.TOP_N)['종목명'])` with `TOP_N = 20` (lines 24,
90-91); the list of the first 20 names stands for the set, membership
being what matters. -/
def topNames (f : Frame) : List String := (f.take 20).map Prod.fst

/-- `set.intersection`: the members of `a` that also occur in `b`. -/
def interNames (a b : List String) : List String :=
  a.filter (fun x => b.contains x)

/-- The entry `calculate_common_stocks` builds for one market
(lines 82-99): the intersection of the two top-20 name sets when both
frames are present, else the empty set. -/
def marketCommon (data_map : List (String × Frame)) (market : String) :
    String × List String :=
  match data_map.lookup (market ++ "_foreigner"),
      data_map.lookup (market ++ "_institutions") with
  | some f, some i => (market, interNames (topNames f) (topNames i))
  | _, _ => (market, [])

/-- `RankingAnalysisService.calculate_common_stocks` (lines 69-101): one
entry per market, markets fixed to `['KOSPI', 'KOSDAQ']` (line 80). -/
def calculate_common_stocks (data_map : List (String × Frame)) :
    List (String × List String) :=
  ["KOSPI", "KOSDAQ"].map (marketCommon data_map)

/-! #### The snapshot sheet and `_execute_update` -/

/-- A cell fill of the snapshot data region: cleared (`FILL_NONE`), the
common-stock highlight (`COMMON_STOCK_FILL`), or some other fill a
template may carry before the region is cleared. -/
inductive GFill
  | clear
  | common
  | custom (n : Nat)
deriving DecidableEq, Repr

/-- One cell of the data region: its value and its fill. -/
structure GCell where
  val : Option CellV
  fill : GFill
deriving DecidableEq, Repr

/-- A snapshot sheet: the two header cells the update rewrites (`A5` date,
`B5` weekday), the fixed data region `D5:L24` as a 20×9 row-major grid
(columns D..L), the auto-fit marks of the symbol columns, and the rest of
the template content — untouched by the update — as an opaque tag. -/
structure RSheet where
  a5 : Option CellV
  b5 : Option CellV
  grid : List (List GCell)
  autofit : Bool
  rest : Nat
deriving DecidableEq, Repr

/-- One `LAYOUT_MAP` entry (lines 26-31): the stock and value columns as
offsets from column D, and the market the category belongs to.  All four
lists start at row 5, row offset 0 of the grid. -/
structure Layout where
  stockCol : Nat
  valueCol : Nat
  market : String
deriving DecidableEq, Repr

/-- `LAYOUT_MAP` (lines 26-31): D/E, F/G, I/J, K/L. -/
def LAYOUT_MAP : List (String × Layout) :=
  [("KOSPI_foreigner", ⟨0, 1, "KOSPI"⟩),
   ("KOSPI_institutions", ⟨2, 3, "KOSPI"⟩),
   ("KOSDAQ_foreigner", ⟨5, 6, "KOSDAQ"⟩),
   ("KOSDAQ_institutions", ⟨7, 8, "KOSDAQ"⟩)]

/-- The data region right after `_clear_data_area` (lines 206-211): every
cell of `D5:L24` has value `None` and fill `FILL_NONE`. -/
def clearedGrid : List (List GCell) :=
  List.replicate 20 (List.replicate 9 ⟨none, .clear⟩)

/-- Write one grid cell. -/
def setCell (g : List (List GCell)) (r c : Nat) (cell : GCell) :
    List (List GCell) :=
  g.set r ((g.getD r []).set c cell)

/-- Read one grid cell. -/
def getCell (g : List (List GCell)) (r c : Nat) : GCell :=
  (g.getD r []).getD c ⟨none, .clear⟩

/-- `ws[...] = value`: set a cell's value, keep its fill. -/
def setVal (g : List (List GCell)) (r c : Nat) (v : Option CellV) :
    List (List GCell) :=
  setCell g r c ⟨v, (getCell g r c).fill⟩

/-- `ws[...].fill = ...`: set a cell's fill, keep its value. -/
def setFill (g : List (List GCell)) (r c : Nat) (f : GFill) :
    List (List GCell) :=
  setCell g r c ⟨(getCell g r c).val, f⟩

/-- `_paste_single_list` (lines 213-230): write `min(len(df), 20)` rows of
(name, value) pairs into the layout's two columns, returning the count. -/
def pasteSingleList (g : List (List GCell)) (df : Frame) (ly : Layout) :
    List (List GCell) × Nat :=
  let count := min df.length 20
  ((List.range count).foldl (fun acc i =>
      setVal (setVal acc i ly.stockCol (some (.str (df.getD i ("", 0)).1)))
        i ly.valueCol (some (.num (df.getD i ("", 0)).2))) g,
   count)

/-- `_apply_common_stock_format` (lines 232-247): re-read each pasted
stock cell and highlight it when its name is in the market's common set. -/
def applyCommonFormat (g : List (List GCell)) (ly : Layout)
    (commonSet : List String) (count : Nat) : List (List GCell) :=
  (List.range count).foldl (fun acc i =>
    match (getCell acc i ly.stockCol).val with
    | some (.str nm) =>
        if commonSet.contains nm then setFill acc i ly.stockCol .common
        else acc
    | _ => acc) g

/-- `_clear_remaining_rows` (lines 249-263): blank the values (not the
fills) of rows `count..19` of the layout's two columns. -/
def clearRemainingRows (g : List (List GCell)) (ly : Layout) (count : Nat) :
    List (List GCell) :=
  (List.range' count (20 - count)).foldl (fun acc i =>
    setVal (setVal acc i ly.stockCol none) i ly.valueCol none) g

/-- `_paste_and_format_data` (lines 177-204): clear the region, then for
each layout entry with a present, non-empty frame: paste, highlight the
market's common stocks, clear the leftover rows.  The result depends only
on the frames and common sets — the cleared region wipes whatever the
cloned template held. -/
def pasteFormatData (dm : List (String × Frame))
    (commons : List (String × List String)) : List (List GCell) :=
  LAYOUT_MAP.foldl (fun acc kv =>
    match dm.lookup kv.1 with
    | some df =>
        if df.isEmpty then acc
        else
          let pr := pasteSingleList acc df kv.2
          let acc2 := match commons.lookup kv.2.market with
            | some cs => applyCommonFormat pr.1 kv.2 cs pr.2
            | none => pr.1
          clearRemainingRows acc2 kv.2 pr.2
    | none => acc) clearedGrid

/-- `report_date.strftime('%Y-%m-%d')` (line 173). -/
def dateDashed (dt : RDate) : String :=
  toString dt.y ++ "-" ++ pad2 dt.m ++ "-" ++ pad2 dt.d

/-- `datetime.date.weekday()`: 0 = Monday … 6 = Sunday, by Zeller's
congruence. -/
def pyWeekday (dt : RDate) : Nat :=
  let ym := if dt.m < 3 then (dt.y - 1, dt.m + 12) else (dt.y, dt.m)
  let k := ym.1 % 100
  let j := ym.1 / 100
  let h := (dt.d + (13 * (ym.2 + 1)) / 5 + k + k / 4 + j / 4 + 5 * j) % 7
  (h + 5) % 7

/-- `korean_weekdays` (line 43). -/
def korean_weekdays : List String := ["월", "화", "수", "목", "금", "토", "일"]

/-- `_update_sheet_headers` (lines 171-175). -/
def weekdayLabel (dt : RDate) : String :=
  korean_weekdays.getD (pyWeekday dt) "월"

/-- Everything the update writes into the cloned sheet: the `A5`/`B5`
headers (lines 171-175), the data region and its fills (lines 177-263)
— which depend only on the frames and common sets — and the auto-fit
marks (lines 265-268).  The rest of the template content survives the
clone untouched. -/
def transformSheet (dt : RDate) (dm : List (String × Frame))
    (commons : List (String × List String)) (src : RSheet) : RSheet :=
  { a5 := some (.str (dateDashed dt)),
    b5 := some (.str (weekdayLabel dt)),
    grid := pasteFormatData dm commons,
    autofit := true,
    rest := src.rest }

/-- A snapshot workbook: its ordered, named sheets. -/
abbrev RBook := List (String × RSheet)

/-- The sheet of the snapshot workbook carrying the given name. -/
def lookupRSheet (book : RBook) (name : String) : Option RSheet :=
  (book.find? (fun s => s.1 == name)).map Prod.snd

/-- `RankingAnalysisService._execute_update` (lines 103-149) on a loaded
workbook: with no sheets the update fails and changes nothing; otherwise
the last sheet (`book.worksheets[-1]`, line 122) is the template, any
existing sheet keyed `MMDD` (`strftime('%m%d')`, line 158 — the same
format `pivotSheetName` models) is deleted first (lines 160-162), and the
rewritten clone of the template is appended under that key
(`copy_worksheet` appends, lines 164-166). -/
def execute_update (dt : RDate) (dm : List (String × Frame))
    (commons : List (String × List String)) (book : RBook) : Bool × RBook :=
  match book.getLast? with
  | none => (false, book)
  | some src =>
      let name := pivotSheetName dt
      let removed := book.eraseP (fun s => s.1 == name)
      (true, removed ++ [(name, transformSheet dt dm commons src.2)])

end Krx

namespace Krx

/-! ### Lemmas about the descending sort

Only kernel-independent facts are proved: the sort result is a
permutation of the input, in descending key order. -/

theorem sortRowsDesc_perm (t : Table) (c : String) :
    (sortRowsDesc t c).Perm t.rows :=
  List.perm_insertionSort _ _

theorem sortRowsDesc_pairwise (t : Table) (c : String) :
    (sortRowsDesc t c).Pairwise
      (fun r1 r2 => sortKey t c r2 ≤ sortKey t c r1) := by
  haveI : IsTotal (List CellV)
      (fun r1 r2 => sortKey t c r2 ≤ sortKey t c r1) :=
    ⟨fun a b => le_total (sortKey t c b) (sortKey t c a)⟩
  haveI : IsTrans (List CellV)
      (fun r1 r2 => sortKey t c r2 ≤ sortKey t c r1) :=
    ⟨fun a b d hab hbd => le_trans hbd hab⟩
  exact List.sorted_insertionSort _ t.rows

/-! ### Claim C5 -/

/-- C5 counterexample: the spec's scenario payload carries only the headers
`["종목명", "거래대금_순매수"]`; the required-column check of
krx_processor.py lines 60-64 demands `종목코드` as well, so the
Standardizer returns the empty table for it — not the claimed two-row
output `[("B",900),("C",900)]`. -/
theorem C5_counterexample :
    process_krx_net_value_excel scenarioGiven = emptyTable ∧
    (process_krx_net_value_excel scenarioGiven).rows
      ≠ [[CellV.str "B", CellV.num 900], [CellV.str "C", CellV.num 900]] := by
  constructor
  · decide
  · decide

/-- C5 (amended): for every parsed table that passes the value-column
detection and the required-column check, the Standardizer output has
exactly min(20, R) rows (the top-count is the fixed constant 20 of
krx_processor.py line 67), its values are in descending order, and it is
the first 20 entries of some descending reordering of the table's rows,
projected to the output columns — facts that hold for any sort kernel.
The original claim's tie-stability clause is withdrawn: the sort is
pandas' default `kind='quicksort'`, which does not guarantee the order
among equal values, so no tie order is asserted.  (The scenario payload
as given lacks the required `종목코드` column and produces no output at
all; see the counterexample.) -/
theorem C5_standardizer_top20_sorted (t : Table) (c : String)
    (hc : findSortCol t = some c)
    (h1 : "종목코드" ∈ t.headers) (h2 : "종목명" ∈ t.headers)
    (h3 : c ∈ t.headers) :
    (process_krx_net_value_excel t).rows.length = min 20 t.rows.length
    ∧ (process_krx_net_value_excel t).rows.Pairwise
        (fun r1 r2 => outVal r2 ≤ outVal r1)
    ∧ ∃ rows2 : List (List CellV), rows2.Perm t.rows
        ∧ rows2.Pairwise (fun r1 r2 => sortKey t c r2 ≤ sortKey t c r1)
        ∧ (process_krx_net_value_excel t).rows
            = (rows2.take 20).map (projRow t c) := by
  have hrows : (process_krx_net_value_excel t).rows
      = ((sortRowsDesc t c).take 20).map (projRow t c) := by
    simp only [process_krx_net_value_excel, hc]
    rw [if_pos ⟨h1, h2, h3⟩]
  refine ⟨?_, ?_, ⟨sortRowsDesc t c, sortRowsDesc_perm t c,
    sortRowsDesc_pairwise t c, hrows⟩⟩
  · rw [hrows, List.length_map, List.length_take, sortRowsDesc,
      List.length_insertionSort]
  · rw [hrows]
    have hp : ((sortRowsDesc t c).take 20).Pairwise
        (fun r1 r2 => sortKey t c r2 ≤ sortKey t c r1) :=
      List.Pairwise.sublist (List.take_sublist 20 _) (sortRowsDesc_pairwise t c)
    refine hp.map (projRow t c) ?_
    intro a b hab
    simpa [outVal, projRow, Table.cellAt, sortKey] using hab

/-- Witness for C5: the amended theorem applied at the concrete scenario
table completed with its `종목코드` column, every hypothesis discharged
by evaluation. -/
theorem C5_witness :
    (process_krx_net_value_excel scenarioWithCode).rows.length
        = min 20 scenarioWithCode.rows.length
    ∧ (process_krx_net_value_excel scenarioWithCode).rows.Pairwise
        (fun r1 r2 => outVal r2 ≤ outVal r1)
    ∧ ∃ rows2 : List (List CellV), rows2.Perm scenarioWithCode.rows
        ∧ rows2.Pairwise (fun r1 r2 =>
            sortKey scenarioWithCode "거래대금_순매수" r2
              ≤ sortKey scenarioWithCode "거래대금_순매수" r1)
        ∧ (process_krx_net_value_excel scenarioWithCode).rows
            = (rows2.take 20).map
                (projRow scenarioWithCode "거래대금_순매수") :=
  C5_standardizer_top20_sorted scenarioWithCode "거래대금_순매수"
    (by decide) (by decide) (by decide) (by decide)

/-! ### Claim C6 -/

/-- C6: the value-column detection rule of krx_processor.py lines 42-58.
(1) If the header list splits as `l1 ++ c :: l2` with no keyword match in
`l1` and `c` matching all keywords, the detected column is `c` (the first
match).  (2) If no header matches the keywords and the header list splits
as `l1 ++ c :: l2` with `c` entirely numeric and nothing numeric after it,
the detected column is `c` (the last numeric column).  (3) If no header
matches and no column is numeric, the Standardizer fails: it returns the
empty table (the source signals `MissingValueColumn` by returning
`pd.DataFrame()` at line 58). -/
theorem C6_value_column_rule (t : Table) :
    (∀ l1 c l2, t.headers = l1 ++ c :: l2 →
       (∀ h ∈ l1, headerMatches h = false) → headerMatches c = true →
       findSortCol t = some c)
    ∧ (∀ l1 c l2, t.headers = l1 ++ c :: l2 →
       (∀ h ∈ t.headers, headerMatches h = false) →
       t.isNumericCol c = true → (∀ h ∈ l2, t.isNumericCol h = false) →
       findSortCol t = some c)
    ∧ ((∀ h ∈ t.headers, headerMatches h = false) →
       (∀ h ∈ t.headers, t.isNumericCol h = false) →
       process_krx_net_value_excel t = emptyTable) := by
  refine ⟨?_, ?_, ?_⟩
  · intro l1 c l2 ht hl1 hc
    have hfind : t.headers.find? headerMatches = some c := by
      rw [ht, List.find?_append]
      have h1 : l1.find? headerMatches = none :=
        List.find?_eq_none.mpr (fun x hx => by simp [hl1 x hx])
      rw [h1, Option.none_or, List.find?_cons_of_pos _ hc]
    simp only [findSortCol, hfind]
  · intro l1 c l2 ht hall hc hl2
    have hfind : t.headers.find? headerMatches = none :=
      List.find?_eq_none.mpr (fun x hx => by simp [hall x hx])
    have h2 : l2.filter (t.isNumericCol) = [] :=
      List.filter_eq_nil_iff.mpr (fun x hx => by simp [hl2 x hx])
    have hfilter : t.headers.filter (t.isNumericCol)
        = l1.filter (t.isNumericCol) ++ [c] := by
      rw [ht, List.filter_append, List.filter_cons_of_pos hc, h2]
    simp only [findSortCol, hfind, hfilter, List.getLast?_concat]
  · intro hall hnum
    have hfind : t.headers.find? headerMatches = none :=
      List.find?_eq_none.mpr (fun x hx => by simp [hall x hx])
    have hfilter : t.headers.filter (t.isNumericCol) = [] :=
      List.filter_eq_nil_iff.mpr (fun x hx => by simp [hnum x hx])
    simp only [process_krx_net_value_excel, findSortCol, hfind, hfilter,
      List.getLast?_nil]

/-- Witness for C6: the detection rule applied to three concrete tables,
one per branch. -/
theorem C6_witness :
    findSortCol tblKeyword = some "전체 순매수 거래대금"
    ∧ findSortCol tblNumericFallback = some "가격"
    ∧ process_krx_net_value_excel tblNoNumeric = emptyTable := by
  refine ⟨?_, ?_, ?_⟩
  · exact (C6_value_column_rule tblKeyword).1 ["이름"] _ ["기타"] rfl
      (by decide) (by decide)
  · exact (C6_value_column_rule tblNumericFallback).2.1 ["종목명"] _ ["비고"]
      rfl (by decide) (by decide) (by decide)
  · exact (C6_value_column_rule tblNoNumeric).2.2 (by decide) (by decide)

/-! ### Lemmas about the context dictionary -/

theorem getKey_map_set_ne (c : Ctx) (k k2 : String) (v : CtxV) (h : k2 ≠ k) :
    getKey (c.map (fun p => if p.1 == k2 then (k2, v) else p)) k = getKey c k := by
  induction c with
  | nil => rfl
  | cons p m ih =>
    simp only [List.map_cons]
    by_cases hp : p.1 = k2
    · rw [if_pos (by simp [hp])]
      simp only [getKey]
      rw [if_neg (by simp [h]), if_neg (by simp [hp, h])]
      exact ih
    · rw [if_neg (by simp [hp])]
      simp only [getKey]
      by_cases hq : p.1 = k
      · rw [if_pos (by simp [hq]), if_pos (by simp [hq])]
      · rw [if_neg (by simp [hq]), if_neg (by simp [hq])]
        exact ih

theorem getKey_append_single_ne (c : Ctx) (k k2 : String) (v : CtxV)
    (h : k2 ≠ k) : getKey (c ++ [(k2, v)]) k = getKey c k := by
  induction c with
  | nil => simp [getKey, h]
  | cons p m ih =>
    simp only [List.cons_append, getKey]
    by_cases hq : p.1 = k
    · rw [if_pos (by simp [hq]), if_pos (by simp [hq])]
    · rw [if_neg (by simp [hq]), if_neg (by simp [hq])]
      exact ih

theorem getKey_setKey_ne (c : Ctx) (k k2 : String) (v : CtxV) (h : k2 ≠ k) :
    getKey (setKey c k2 v) k = getKey c k := by
  unfold setKey
  split
  · exact getKey_map_set_ne c k k2 v h
  · exact getKey_append_single_ne c k k2 v h

theorem getKey_updateCtx_of_not_mem (c u : Ctx) (k : String)
    (h : ∀ p ∈ u, p.1 ≠ k) :
    getKey (updateCtx c u) k = getKey c k := by
  induction u generalizing c with
  | nil => rfl
  | cons p m ih =>
    have : updateCtx c (p :: m) = updateCtx (setKey c p.1 p.2) m := rfl
    rw [this, ih _ (fun q hq => h q (List.mem_cons_of_mem p hq)),
      getKey_setKey_ne _ _ _ _ (h p (List.mem_cons_self p m))]

/-! ### Claim C2 -/

/-- C2 counterexample: a task that RETURNS `status = 'critical_error'`
does not stop the run loop of `DailyKrxNetValuePipeline.run` — the
following task still executes (its marker appears in the final context) —
because lines 160-161 only test for `error` and `skipped`.  The second
conjunct shows the merged status really was `critical_error` after that
task's merge. -/
theorem C2_counterexample :
    getKey (runSteps [taskCriticalStatus, taskMarker] []) "ran_after"
        = some (.str "yes")
    ∧ getKey (updateCtx [] [("status", CtxV.str "critical_error")]) "status"
        = some (.str "critical_error") := by
  constructor
  · decide
  · decide

/-- C2 (amended): after merging a task's returned dictionary the pipeline
stops and returns the current context exactly when the merged status is
`error` or `skipped` — the remaining tasks never execute (the result does
not depend on them); a raised exception merges
`status = 'critical_error'` plus the message and also stops.  A returned
`critical_error` status does not stop the loop. -/
theorem C2_pipeline_halt (t : Task) (ts : List Task) (c out : Ctx) :
    (t c = .ok out → haltStatus (updateCtx c out) = true →
       runSteps (t :: ts) c = updateCtx c out)
    ∧ (∀ e, t c = .error e →
       runSteps (t :: ts) c
         = updateCtx c
             [("status", .str "critical_error"), ("message", .str e)]) := by
  constructor
  · intro hok hhalt
    simp [runSteps, hok, hhalt]
  · intro e he
    simp [runSteps, he]

/-- Witness for C2: a task returning `error` halts before the marker task;
a raising task halts with `critical_error`. -/
theorem C2_witness :
    runSteps [taskErrorStatus, taskMarker] []
        = updateCtx [] [("status", .str "error")]
    ∧ runSteps [taskRaises, taskMarker] []
        = updateCtx []
            [("status", .str "critical_error"), ("message", .str "boom")] :=
  ⟨(C2_pipeline_halt taskErrorStatus [taskMarker] []
      [("status", .str "error")]).1 rfl (by decide),
   (C2_pipeline_halt taskRaises [taskMarker] [] []).2 "boom" rfl⟩

/-! ### Claim C9 -/

/-- C9 counterexample: a task returning a dictionary with no `status` key
does not make the pipeline set `critical_error` — the status is simply
left as it was (absent here, since the initial context has none), and the
next task still executes. -/
theorem C9_counterexample :
    getKey (runSteps [taskNoStatus] []) "status" = none
    ∧ getKey (runSteps [taskNoStatus, taskMarker] []) "ran_after"
        = some (.str "yes") := by
  constructor
  · decide
  · decide

/-- C9 (amended): when a task returns a dictionary containing no `status`
key, the merge leaves the context's status unchanged, and — unless the
prior status was already `error` or `skipped` — the run loop silently
continues with the next tasks; no `critical_error` defaulting happens. -/
theorem C9_missing_status_continues (t : Task) (ts : List Task) (c out : Ctx)
    (hok : t c = .ok out) (hno : ∀ p ∈ out, p.1 ≠ "status") :
    getKey (updateCtx c out) "status" = getKey c "status"
    ∧ (haltStatus c = false →
        runSteps (t :: ts) c = runSteps ts (updateCtx c out)) := by
  have hst : getKey (updateCtx c out) "status" = getKey c "status" :=
    getKey_updateCtx_of_not_mem c out "status" hno
  refine ⟨hst, fun hhalt => ?_⟩
  have hhalt2 : haltStatus (updateCtx c out) = false := by
    unfold haltStatus
    rw [hst]
    unfold haltStatus at hhalt
    exact hhalt
  simp [runSteps, hok, hhalt2]

/-- Witness for C9: the status-free task leaves the empty context's status
absent and the run continues into the next task. -/
theorem C9_witness :
    getKey (updateCtx [] [("data", CtxV.payload 1)]) "status" = getKey [] "status"
    ∧ runSteps [taskNoStatus, taskMarker] []
        = runSteps [taskMarker] (updateCtx [] [("data", CtxV.payload 1)]) := by
  have h := C9_missing_status_continues taskNoStatus [taskMarker] []
    [("data", CtxV.payload 1)] rfl (by decide)
  exact ⟨h.1, h.2 (by decide)⟩

/-! ### Lemmas about the ledger workbook operations -/

theorem mem_sheetNames_insertSheetAt (wb : Workbook) (i : Nat)
    (x : String × MSheet) : x.1 ∈ sheetNames (insertSheetAt wb i x) := by
  simp [insertSheetAt, sheetNames]

theorem mem_sheetNames_placePivot (book2 : Workbook) (sName : String)
    (x : String × MSheet) : x.1 ∈ sheetNames (placePivot book2 sName x) := by
  unfold placePivot
  cases book2.findIdx? (fun s => s.1 == sName) with
  | some i => exact mem_sheetNames_insertSheetAt book2 i x
  | none =>
    by_cases hb : book2.isEmpty = true
    · rw [if_pos hb]
      simp [sheetNames]
    · rw [if_neg hb]
      exact mem_sheetNames_insertSheetAt book2 _ x

theorem pivot_mem_fullUpdateBook (daily : List (String × Int)) (dt : RDate)
    (wbOpt : Option Workbook) :
    pivotSheetName dt ∈ sheetNames (fullUpdateBook daily dt wbOpt) := by
  unfold fullUpdateBook
  exact mem_sheetNames_placePivot _ _ _

theorem update_report_invalid (report_key : String)
    (daily : List (String × Int)) (dt : RDate) (st : MState)
    (hk : report_key ∉ fileMapKeys) :
    update_report report_key daily dt st = (false, st) := by
  unfold update_report
  rw [if_pos hk]

theorem update_report_skip (report_key : String)
    (daily : List (String × Int)) (dt : RDate) (st : MState) (wb : Workbook)
    (hk : report_key ∈ fileMapKeys) (hf : st.file = some wb)
    (hp : pivotSheetName dt ∈ sheetNames wb) :
    update_report report_key daily dt st = (true, st) := by
  simp only [update_report, hf]
  rw [if_neg (not_not_intro hk), if_pos hp]

theorem update_report_full_some (report_key : String)
    (daily : List (String × Int)) (dt : RDate) (st : MState) (wb : Workbook)
    (hk : report_key ∈ fileMapKeys) (hf : st.file = some wb)
    (hp : pivotSheetName dt ∉ sheetNames wb) :
    update_report report_key daily dt st
      = (true, ⟨some (fullUpdateBook daily dt (some wb))⟩) := by
  simp only [update_report, hf]
  rw [if_neg (not_not_intro hk), if_neg hp]

theorem update_report_full_none (report_key : String)
    (daily : List (String × Int)) (dt : RDate) (st : MState)
    (hk : report_key ∈ fileMapKeys) (hf : st.file = none) :
    update_report report_key daily dt st
      = (true, ⟨some (fullUpdateBook daily dt none)⟩) := by
  simp only [update_report, hf]
  rw [if_neg (not_not_intro hk)]

/-! ### Claim C1 -/

/-- C1: `ExcelMasterAdapter.update_report` is idempotent on the persisted
file state — a second call with the same (report key, date, rows) leaves
the state exactly as the first call left it.  Whenever the first call
rewrites the file it creates the `MMDD` pivot sheet, so the second call
takes the V22 fast-skip branch and leaves the state untouched; when the
first call fast-skips or fails on an unknown key, it leaves the state
untouched already. -/
theorem C1_update_report_idempotent (report_key : String)
    (daily : List (String × Int)) (dt : RDate) (st : MState) :
    (update_report report_key daily dt
        (update_report report_key daily dt st).2).2
      = (update_report report_key daily dt st).2 := by
  by_cases hk : report_key ∈ fileMapKeys
  · cases hf : st.file with
    | none =>
        rw [update_report_full_none report_key daily dt st hk hf]
        dsimp only
        rw [update_report_skip report_key daily dt _ _ hk rfl
          (pivot_mem_fullUpdateBook daily dt none)]
    | some wb =>
        by_cases hp : pivotSheetName dt ∈ sheetNames wb
        · rw [update_report_skip report_key daily dt st wb hk hf hp]
          dsimp only
          rw [update_report_skip report_key daily dt st wb hk hf hp]
        · rw [update_report_full_some report_key daily dt st wb hk hf hp]
          dsimp only
          rw [update_report_skip report_key daily dt _ _ hk rfl
            (pivot_mem_fullUpdateBook daily dt (some wb))]
  · rw [update_report_invalid report_key daily dt st hk]
    dsimp only
    rw [update_report_invalid report_key daily dt st hk]

/-! ### Claim C3 -/

/-- C3 counterexample: the fast-skip path returns the bare success flag
`True`, not the previously computed top-ranked list.  Two file states
whose stored pivot sheets rank different lists get the very same return
value `(true, ·)` with the state untouched, so the return value carries no
ranked list at all; it cannot be "the previously computed top-ranked
list" as the claim asserts. -/
theorem C3_counterexample :
    update_report "KOSPI_foreigner" [] ⟨2025, 1, 2⟩ stA = (true, stA)
    ∧ update_report "KOSPI_foreigner" [] ⟨2025, 1, 2⟩ stB = (true, stB)
    ∧ pivotA ≠ pivotB := by
  refine ⟨by decide, by decide, by decide⟩

/-- C3 (amended): when the destination file already contains a pivot sheet
keyed by the exact date, `update_report` returns immediately with success
(`True`) and the persisted state is completely untouched — no document
write and no further storage access happen. -/
theorem C3_fast_skip_no_write (report_key : String)
    (daily : List (String × Int)) (dt : RDate) (st : MState) (wb : Workbook)
    (hk : report_key ∈ fileMapKeys) (hf : st.file = some wb)
    (hp : pivotSheetName dt ∈ sheetNames wb) :
    update_report report_key daily dt st = (true, st) :=
  update_report_skip report_key daily dt st wb hk hf hp

/-- Witness for C3: a concrete file with a 0102 pivot sheet fast-skips. -/
theorem C3_witness :
    update_report "KOSPI_foreigner" [("Z", 1)] ⟨2025, 1, 2⟩ stA
      = (true, stA) :=
  C3_fast_skip_no_write "KOSPI_foreigner" [("Z", 1)] ⟨2025, 1, 2⟩ stA _
    (by decide) rfl (by decide)

/-! ### Further workbook lemmas, for C4 -/

theorem lookupSheet_insertSheetAt_ne (wb : Workbook) (i : Nat)
    (x : String × MSheet) (name : String) (h : x.1 ≠ name) :
    lookupSheet (insertSheetAt wb i x) name = lookupSheet wb name := by
  unfold lookupSheet insertSheetAt
  have hx : List.find? (fun s => s.1 == name) [x] = none := by
    have hb : (x.1 == name) = false := beq_eq_false_iff_ne.mpr h
    simp [List.find?, hb]
  conv_rhs => rw [← List.take_append_drop i wb]
  rw [List.find?_append, List.find?_append, hx, Option.or_none,
    ← List.find?_append]

theorem lookupSheet_insertSheetAt_self (wb : Workbook) (i : Nat)
    (x : String × MSheet) (hx : x.1 ∉ sheetNames wb) :
    lookupSheet (insertSheetAt wb i x) x.1 = some x.2 := by
  unfold lookupSheet insertSheetAt
  have h1 : List.find? (fun s => s.1 == x.1) (wb.take i) = none := by
    refine List.find?_eq_none.mpr ?_
    intro s hs
    have hmem : s ∈ wb := List.take_subset i wb hs
    simp only [beq_iff_eq]
    intro hbeq
    exact hx (hbeq ▸ List.mem_map_of_mem Prod.fst hmem)
  have h2 : List.find? (fun s => s.1 == x.1) [x] = some x := by
    simp [List.find?]
  rw [List.find?_append, List.find?_append, h1, Option.none_or, h2]
  rfl

theorem lookupSheet_placePivot_ne (book2 : Workbook) (sName : String)
    (x : String × MSheet) (name : String) (h : x.1 ≠ name) :
    lookupSheet (placePivot book2 sName x) name = lookupSheet book2 name := by
  unfold placePivot
  cases book2.findIdx? (fun s => s.1 == sName) with
  | some i => exact lookupSheet_insertSheetAt_ne book2 i x name h
  | none =>
    by_cases hb : book2.isEmpty = true
    · rw [if_pos hb, List.isEmpty_iff.mp hb]
      have hbeq : (x.1 == name) = false := beq_eq_false_iff_ne.mpr h
      simp [lookupSheet, List.find?, hbeq]
    · rw [if_neg hb]
      exact lookupSheet_insertSheetAt_ne book2 _ x name h

theorem lookupSheet_placePivot_self (book2 : Workbook) (sName : String)
    (x : String × MSheet) (hx : x.1 ∉ sheetNames book2) :
    lookupSheet (placePivot book2 sName x) x.1 = some x.2 := by
  unfold placePivot
  cases book2.findIdx? (fun s => s.1 == sName) with
  | some i => exact lookupSheet_insertSheetAt_self book2 i x hx
  | none =>
    by_cases hb : book2.isEmpty = true
    · rw [if_pos hb]
      simp [lookupSheet, List.find?]
    · rw [if_neg hb]
      exact lookupSheet_insertSheetAt_self book2 _ x hx

theorem fullUpdateBook_dup (daily : List (String × Int)) (dt : RDate)
    (wb : Workbook) (existing : List LRow)
    (hs : lookupSheet wb (sheetName dt) = some (.rawSheet existing))
    (hdup : dateInt dt ∈ existing.map (fun r => r.date))
    (hnp : pivotSheetName dt ∉ sheetNames wb) :
    fullUpdateBook daily dt (some wb)
      = placePivot wb (sheetName dt)
          (pivotSheetName dt, .pivotSheet (calculate_pivot existing)) := by
  have her : wb.eraseP (fun s => s.1 == pivotSheetName dt) = wb := by
    refine List.eraseP_of_forall_not ?_
    intro s hsmem
    simp only [beq_iff_eq]
    intro hbeq
    exact hnp (hbeq ▸ List.mem_map_of_mem Prod.fst hsmem)
  simp only [fullUpdateBook, hs]
  rw [if_pos hdup]
  simp only [List.isEmpty_nil, if_true, List.append_nil, her]

/-! ### Claim C4 -/

/-- C4 counterexample: a file whose raw sheet already carries the target
date but which ALSO already has a (stale, here empty) pivot sheet for that
date.  The claim says the update still recomputes the pivot from the
existing raw rows; in fact the V22 fast-skip fires first (lines 67-86),
the state is left byte-for-byte untouched, and the stale pivot differs
from what recomputation would produce. -/
theorem C4_counterexample :
    update_report "KOSPI_foreigner" [("A", 5)] ⟨2025, 1, 2⟩ staleSt
      = (true, staleSt)
    ∧ (∃ wb, staleSt.file = some wb
        ∧ lookupSheet wb "0102" = some (.pivotSheet [])
        ∧ lookupSheet wb "JAN"
            = some (.rawSheet [⟨20250102, "A", .num 5⟩]))
    ∧ MSheet.pivotSheet []
        ≠ .pivotSheet (calculate_pivot [⟨20250102, "A", .num 5⟩]) := by
  refine ⟨by decide, ⟨_, rfl, by decide, by decide⟩, by decide⟩

/-- C4 (amended): if the raw-row sheet of the month already contains a row
carrying the target date AND the pivot sheet for that date is absent
(otherwise the fast-skip of lines 67-86 returns without recomputing),
`update_report` appends no new raw rows — the month sheet keeps exactly
its previous rows — recomputes the pivot sheet from those existing rows,
and reports success. -/
theorem C4_duplicate_date_heals (report_key : String)
    (daily : List (String × Int)) (dt : RDate) (st : MState) (wb : Workbook)
    (existing : List LRow)
    (hk : report_key ∈ fileMapKeys)
    (hf : st.file = some wb)
    (hnp : pivotSheetName dt ∉ sheetNames wb)
    (hs : lookupSheet wb (sheetName dt) = some (.rawSheet existing))
    (hdup : dateInt dt ∈ existing.map (fun r => r.date))
    (hne : pivotSheetName dt ≠ sheetName dt) :
    ∃ wb2 : Workbook,
      update_report report_key daily dt st = (true, ⟨some wb2⟩)
      ∧ lookupSheet wb2 (sheetName dt) = some (.rawSheet existing)
      ∧ lookupSheet wb2 (pivotSheetName dt)
          = some (.pivotSheet (calculate_pivot existing)) := by
  refine ⟨fullUpdateBook daily dt (some wb),
    update_report_full_some report_key daily dt st wb hk hf hnp, ?_, ?_⟩
  · rw [fullUpdateBook_dup daily dt wb existing hs hdup hnp,
      lookupSheet_placePivot_ne _ _ _ _ hne]
    exact hs
  · rw [fullUpdateBook_dup daily dt wb existing hs hdup hnp]
    exact lookupSheet_placePivot_self wb (sheetName dt) _ hnp

/-! ### Summation lemmas for the pivot invariant (C7) -/

theorem sum_map_add_int {α : Type} (f g : α → Int) (l : List α) :
    (l.map (fun x => f x + g x)).sum = (l.map f).sum + (l.map g).sum := by
  induction l with
  | nil => simp
  | cons a m ih =>
    simp only [List.map_cons, List.sum_cons, ih]
    ring

theorem sum_ite_eq_of_mem (x : Int) (c : Int) (dates : List Int)
    (hnd : dates.Nodup) (hx : x ∈ dates) :
    (dates.map (fun d => if x = d then c else 0)).sum = c := by
  induction dates with
  | nil => cases hx
  | cons d m ih =>
    rcases List.mem_cons.mp hx with rfl | hx'
    · simp only [List.map_cons, List.sum_cons, if_pos trivial]
      have hz : (m.map (fun e => if x = e then c else 0)).sum = 0 := by
        refine List.sum_eq_zero ?_
        intro y hy
        rcases List.mem_map.mp hy with ⟨e, he, rfl⟩
        have hne : x ≠ e := fun heq => (List.nodup_cons.mp hnd).1 (heq ▸ he)
        rw [if_neg hne]
      rw [hz, add_zero]
    · have hd : x ≠ d := fun heq =>
        (List.nodup_cons.mp hnd).1 (heq ▸ hx')
      simp only [List.map_cons, List.sum_cons, if_neg hd]
      rw [ih (List.nodup_cons.mp hnd).2 hx', zero_add]

theorem sum_filter_dates (coef : LRow → Int) (l : List LRow)
    (dates : List Int) (hnd : dates.Nodup)
    (hcov : ∀ r ∈ l, r.date ∈ dates) :
    (dates.map
      (fun d => ((l.filter (fun q => q.date == d)).map coef).sum)).sum
      = (l.map coef).sum := by
  induction l with
  | nil => simp
  | cons r m ih =>
    have hsplit : ∀ d : Int,
        (((r :: m).filter (fun q => q.date == d)).map coef).sum
          = (if r.date = d then coef r else 0)
            + ((m.filter (fun q => q.date == d)).map coef).sum := by
      intro d
      by_cases h : r.date = d
      · rw [List.filter_cons_of_pos (by simp [h]), if_pos h]
        simp
      · rw [List.filter_cons_of_neg (by simp [h]), if_neg h, zero_add]
    have hmap : dates.map
        (fun d => (((r :: m).filter (fun q => q.date == d)).map coef).sum)
        = dates.map (fun d => (if r.date = d then coef r else 0)
            + ((m.filter (fun q => q.date == d)).map coef).sum) :=
      List.map_congr_left (fun d _ => hsplit d)
    rw [hmap, sum_map_add_int,
      sum_ite_eq_of_mem r.date (coef r) dates hnd
        (hcov r (List.mem_cons_self r m)),
      ih (fun q hq => hcov q (List.mem_cons_of_mem r hq))]
    simp

theorem pivotDates_nodup (rows : List LRow) : (pivotDates rows).Nodup :=
  (List.perm_insertionSort _ _).nodup_iff.mpr
    (List.nodup_dedup _)

theorem mem_pivotDates (rows : List LRow) (r : LRow) (hr : r ∈ rows) :
    r.date ∈ pivotDates rows :=
  (List.mem_insertionSort _).mpr
    (List.mem_dedup.mpr (List.mem_map_of_mem (fun q => q.date) hr))

/-! ### Claim C7 -/

/-- C7: in the recomputed pivot, every entry's `총계` running total equals
the sum of that entry's per-date cells (`pivot.sum(axis=1)`, skipping the
`NaN` cells), and that in turn equals the sum of the coerced amounts of
exactly that symbol's rows in the raw-row data — the round-trip
invariant. -/
theorem C7_pivot_total_invariant (rows : List LRow) (p : PivotEntry)
    (hp : p ∈ calculate_pivot rows) :
    p.total = (p.cells.map (fun c => c.getD 0)).sum
    ∧ p.total = ((rows.filter (fun r => r.sym == p.sym)).map
        (fun r => coerceAmt r.amt)).sum := by
  unfold calculate_pivot at hp
  by_cases hr : rows.isEmpty = true
  · rw [if_pos hr] at hp
    cases hp
  · rw [if_neg hr] at hp
    rcases List.mem_map.mp ((List.mem_insertionSort _).mp hp) with ⟨s, _, rfl⟩
    refine ⟨rfl, ?_⟩
    show ((((pivotDates rows).map
        (fun d => if hasCell rows s d then some (cellSum rows s d)
          else none)).map (fun c => c.getD 0)).sum) = _
    rw [List.map_map]
    have hterm : ∀ d : Int,
        ((fun c => Option.getD c 0) ∘ fun d =>
          if hasCell rows s d then some (cellSum rows s d) else none) d
          = (((rows.filter (fun r => r.sym == s)).filter
              (fun q => q.date == d)).map (fun r => coerceAmt r.amt)).sum := by
      intro d
      have hff : (rows.filter (fun r => r.sym == s)).filter
          (fun q => q.date == d)
          = rows.filter (fun r => r.sym == s && r.date == d) := by
        rw [List.filter_filter]
        exact List.filter_congr (fun r _ => by rw [Bool.and_comm])
      by_cases hc : hasCell rows s d = true
      · simp only [Function.comp, if_pos hc, Option.getD_some]
        rw [hff]
        rfl
      · have hnil : rows.filter (fun r => r.sym == s && r.date == d) = [] := by
          refine List.filter_eq_nil_iff.mpr ?_
          intro r hrm
          exact fun hb =>
            hc (List.any_eq_true.mpr ⟨r, hrm, hb⟩)
        simp only [Function.comp, if_neg hc, Option.getD_none]
        rw [hff, hnil]
        rfl
    rw [List.map_congr_left (fun d _ => hterm d)]
    exact sum_filter_dates (fun r => coerceAmt r.amt)
      (rows.filter (fun r => r.sym == s)) (pivotDates rows)
      (pivotDates_nodup rows)
      (fun q hq => mem_pivotDates rows q (List.mem_of_mem_filter hq))

/-- Witness for C7: the invariant read off a concrete two-symbol,
two-date ledger, including a textual amount that coerces. -/
theorem C7_witness :
    ∃ p : PivotEntry,
      p ∈ calculate_pivot sampleLedgerRows
      ∧ p.total = (p.cells.map (fun c => c.getD 0)).sum
      ∧ p.total
          = ((sampleLedgerRows.filter (fun r => r.sym == p.sym)).map
              (fun r => coerceAmt r.amt)).sum := by
  refine ⟨⟨"A", [some 5, some 1200], 1205⟩, by decide, ?_⟩
  exact C7_pivot_total_invariant sampleLedgerRows _ (by decide)

/-! ### Lemmas for the common-stock computation (C10) -/

theorem marketCommon_fst (dm : List (String × Frame)) (market : String) :
    (marketCommon dm market).1 = market := by
  unfold marketCommon
  cases dm.lookup (market ++ "_foreigner") <;>
    cases dm.lookup (market ++ "_institutions") <;> rfl

theorem marketCommon_absent (dm : List (String × Frame)) (market : String)
    (h : dm.lookup (market ++ "_foreigner") = none
      ∨ dm.lookup (market ++ "_institutions") = none) :
    marketCommon dm market = (market, []) := by
  unfold marketCommon
  cases hf : dm.lookup (market ++ "_foreigner") <;>
    cases hi : dm.lookup (market ++ "_institutions") <;>
    first
      | rfl
      | (rcases h with h | h
         · rw [hf] at h
           cases h
         · rw [hi] at h
           cases h)

theorem marketCommon_both (dm : List (String × Frame)) (market : String)
    (f i : Frame) (hf : dm.lookup (market ++ "_foreigner") = some f)
    (hi : dm.lookup (market ++ "_institutions") = some i) :
    marketCommon dm market
      = (market, interNames (topNames f) (topNames i)) := by
  unfold marketCommon
  rw [hf, hi]

theorem lookup_calculate_common (dm : List (String × Frame))
    (market : String) (hm : market ∈ (["KOSPI", "KOSDAQ"] : List String)) :
    (calculate_common_stocks dm).lookup market
      = some (marketCommon dm market).2 := by
  rcases hK : marketCommon dm "KOSPI" with ⟨k1, v1⟩
  rcases hD : marketCommon dm "KOSDAQ" with ⟨k2, v2⟩
  have h1 : k1 = "KOSPI" := by
    have := marketCommon_fst dm "KOSPI"
    rw [hK] at this
    exact this
  have h2 : k2 = "KOSDAQ" := by
    have := marketCommon_fst dm "KOSDAQ"
    rw [hD] at this
    exact this
  subst h1
  subst h2
  have hcal : calculate_common_stocks dm
      = [("KOSPI", v1), ("KOSDAQ", v2)] := by
    unfold calculate_common_stocks
    simp only [List.map_cons, List.map_nil]
    rw [hK, hD]
  rw [hcal]
  rcases List.mem_cons.mp hm with rfl | hm2
  · rw [hK]
    simp [List.lookup]
  · rcases List.mem_cons.mp hm2 with rfl | hm3
    · rw [hD]
      simp [List.lookup]
    · cases hm3

theorem mem_interNames (a b : List String) (x : String) :
    x ∈ interNames a b ↔ x ∈ a ∧ x ∈ b := by
  simp [interNames, List.mem_filter, List.elem_iff]

/-! ### Claim C10 -/

/-- C10: `calculate_common_stocks` always returns entries for exactly the
markets KOSPI and KOSDAQ, in that order; a market for which the foreigner
or the institutions frame is absent maps to the empty set with no error;
a market with both frames present maps to the intersection of their
top-20 `종목명` sets. -/
theorem C10_common_stocks (dm : List (String × Frame)) :
    (calculate_common_stocks dm).map Prod.fst = ["KOSPI", "KOSDAQ"]
    ∧ (∀ market, market ∈ (["KOSPI", "KOSDAQ"] : List String) →
        (dm.lookup (market ++ "_foreigner") = none
          ∨ dm.lookup (market ++ "_institutions") = none) →
        (calculate_common_stocks dm).lookup market = some [])
    ∧ (∀ market f i, market ∈ (["KOSPI", "KOSDAQ"] : List String) →
        dm.lookup (market ++ "_foreigner") = some f →
        dm.lookup (market ++ "_institutions") = some i →
        ∃ l, (calculate_common_stocks dm).lookup market = some l
          ∧ ∀ x, x ∈ l ↔ x ∈ topNames f ∧ x ∈ topNames i) := by
  refine ⟨?_, ?_, ?_⟩
  · simp [calculate_common_stocks, marketCommon_fst]
  · intro market hm habs
    rw [lookup_calculate_common dm market hm, marketCommon_absent dm market habs]
  · intro market f i hm hf hi
    refine ⟨interNames (topNames f) (topNames i), ?_, ?_⟩
    · rw [lookup_calculate_common dm market hm,
        marketCommon_both dm market f i hf hi]
    · intro x
      exact mem_interNames _ _ x

/-! ### Lemmas for the snapshot update (C8) -/

theorem eraseP_no_match_of_nodup (book : RBook) (name : String)
    (hnd : (book.map Prod.fst).Nodup) :
    ∀ s ∈ book.eraseP (fun q => q.1 == name), ¬(s.1 == name) = true := by
  by_cases hex : ∃ a ∈ book, (a.1 == name) = true
  · rcases hex with ⟨a, ha, hpa⟩
    rcases @List.exists_of_eraseP _ (fun q => q.1 == name) book a ha hpa with
      ⟨b, l1, l2, hnl1, hpb, hbook, herase⟩
    rw [herase]
    intro s hs hps
    rcases List.mem_append.mp hs with h1 | h2
    · exact hnl1 s h1 hps
    · have hb1 : b.1 = name := by simpa using hpb
      have hs1 : s.1 = name := by simpa using hps
      rw [hbook] at hnd
      simp only [List.map_append, List.map_cons] at hnd
      have hpart := (List.nodup_append.mp hnd).2.1
      have hnotin := (List.nodup_cons.mp hpart).1
      exact hnotin (hb1 ▸ hs1 ▸ List.mem_map_of_mem Prod.fst h2)
  · push_neg at hex
    rw [List.eraseP_of_forall_not (fun a ha => hex a ha)]
    exact fun s hs => hex s hs

/-! ### Claim C8 -/

/-- C8: re-running `_execute_update` for the same date leaves the workbook
exactly as the first run left it; in particular exactly one sheet is keyed
by the date (the pre-existing one is deleted before the clone is created,
lines 160-166), and its content after the second run equals the content a
single clean application writes — the rewritten clone of the template.
The second run clones the first run's own sheet, but every rewritten field
(headers, data region, fills, auto-fit) depends only on the date and the
frames, and the untouched remainder is cloned verbatim, so the rewrite is
idempotent. -/
theorem C8_snapshot_update_idempotent (dt : RDate)
    (dm : List (String × Frame)) (commons : List (String × List String))
    (book : RBook) (src : String × RSheet)
    (hlast : book.getLast? = some src)
    (hnd : (book.map Prod.fst).Nodup) :
    ((execute_update dt dm commons (execute_update dt dm commons book).2).2
        = (execute_update dt dm commons book).2)
    ∧ ((execute_update dt dm commons (execute_update dt dm commons book).2).2.countP
        (fun s => s.1 == pivotSheetName dt) = 1)
    ∧ (lookupRSheet (execute_update dt dm commons
          (execute_update dt dm commons book).2).2 (pivotSheetName dt)
        = some (transformSheet dt dm commons src.2)) := by
  have hrm := eraseP_no_match_of_nodup book (pivotSheetName dt) hnd
  have hstep1 : execute_update dt dm commons book
      = (true, book.eraseP (fun s => s.1 == pivotSheetName dt)
          ++ [(pivotSheetName dt, transformSheet dt dm commons src.2)]) := by
    simp only [execute_update, hlast]
  have hlast2 : (book.eraseP (fun s => s.1 == pivotSheetName dt)
      ++ [(pivotSheetName dt, transformSheet dt dm commons src.2)]).getLast?
      = some (pivotSheetName dt, transformSheet dt dm commons src.2) :=
    List.getLast?_concat _
  have herase2 : (book.eraseP (fun s => s.1 == pivotSheetName dt)
      ++ [(pivotSheetName dt, transformSheet dt dm commons src.2)]).eraseP
        (fun s => s.1 == pivotSheetName dt)
      = book.eraseP (fun s => s.1 == pivotSheetName dt) := by
    rw [List.eraseP_append_right _ hrm,
      List.eraseP_cons_of_pos (by simp)]
    simp
  have hstep2 : execute_update dt dm commons
      (book.eraseP (fun s => s.1 == pivotSheetName dt)
        ++ [(pivotSheetName dt, transformSheet dt dm commons src.2)])
      = (true, book.eraseP (fun s => s.1 == pivotSheetName dt)
          ++ [(pivotSheetName dt, transformSheet dt dm commons src.2)]) := by
    simp only [execute_update, hlast2]
    rw [herase2]
    rfl
  refine ⟨?_, ?_, ?_⟩
  · rw [hstep1]
    dsimp only
    rw [hstep2]
  · rw [hstep1]
    dsimp only
    rw [hstep2]
    dsimp only
    rw [List.countP_append, List.countP_eq_zero.mpr hrm]
    simp [List.countP_cons]
  · rw [hstep1]
    dsimp only
    rw [hstep2]
    dsimp only
    unfold lookupRSheet
    rw [List.find?_append, List.find?_eq_none.mpr hrm, Option.none_or]
    simp [List.find?]

/-- Witness for C8: a concrete two-sheet workbook that already carries a
sheet keyed 0102 next to the template. -/
theorem C8_witness :
    ((execute_update ⟨2025, 1, 2⟩ [("KOSPI_foreigner", [("가", 9)])] []
        (execute_update ⟨2025, 1, 2⟩ [("KOSPI_foreigner", [("가", 9)])] []
          [("0102", ⟨none, none, [], false, 3⟩),
           ("0101", ⟨none, none, [], false, 7⟩)]).2).2
      = (execute_update ⟨2025, 1, 2⟩ [("KOSPI_foreigner", [("가", 9)])] []
          [("0102", ⟨none, none, [], false, 3⟩),
           ("0101", ⟨none, none, [], false, 7⟩)]).2)
    ∧ ((execute_update ⟨2025, 1, 2⟩ [("KOSPI_foreigner", [("가", 9)])] []
        (execute_update ⟨2025, 1, 2⟩ [("KOSPI_foreigner", [("가", 9)])] []
          [("0102", ⟨none, none, [], false, 3⟩),
           ("0101", ⟨none, none, [], false, 7⟩)]).2).2.countP
        (fun s => s.1 == pivotSheetName ⟨2025, 1, 2⟩) = 1)
    ∧ (lookupRSheet (execute_update ⟨2025, 1, 2⟩
          [("KOSPI_foreigner", [("가", 9)])] []
          (execute_update ⟨2025, 1, 2⟩ [("KOSPI_foreigner", [("가", 9)])] []
            [("0102", ⟨none, none, [], false, 3⟩),
             ("0101", ⟨none, none, [], false, 7⟩)]).2).2
          (pivotSheetName ⟨2025, 1, 2⟩)
        = some (transformSheet ⟨2025, 1, 2⟩
            [("KOSPI_foreigner", [("가", 9)])] []
            (⟨none, none, [], false, 7⟩ : RSheet))) :=
  C8_snapshot_update_idempotent ⟨2025, 1, 2⟩
    [("KOSPI_foreigner", [("가", 9)])] []
    [("0102", ⟨none, none, [], false, 3⟩),
     ("0101", ⟨none, none, [], false, 7⟩)]
    ("0101", ⟨none, none, [], false, 7⟩) (by decide) (by decide)

/-- Witness for C10: a data map carrying both KOSPI frames but no KOSDAQ
institutions frame. -/
theorem C10_witness :
    (calculate_common_stocks
        [("KOSPI_foreigner", [("가", 1), ("나", 2)]),
         ("KOSPI_institutions", [("나", 3), ("다", 4)]),
         ("KOSDAQ_foreigner", [("라", 5)])]).map Prod.fst
      = ["KOSPI", "KOSDAQ"]
    ∧ (calculate_common_stocks
        [("KOSPI_foreigner", [("가", 1), ("나", 2)]),
         ("KOSPI_institutions", [("나", 3), ("다", 4)]),
         ("KOSDAQ_foreigner", [("라", 5)])]).lookup "KOSDAQ" = some []
    ∧ ∃ l, (calculate_common_stocks
        [("KOSPI_foreigner", [("가", 1), ("나", 2)]),
         ("KOSPI_institutions", [("나", 3), ("다", 4)]),
         ("KOSDAQ_foreigner", [("라", 5)])]).lookup "KOSPI" = some l
        ∧ ∀ x, x ∈ l ↔ x ∈ topNames [("가", 1), ("나", 2)]
            ∧ x ∈ topNames [("나", 3), ("다", 4)] := by
  have h := C10_common_stocks
    [("KOSPI_foreigner", [("가", 1), ("나", 2)]),
     ("KOSPI_institutions", [("나", 3), ("다", 4)]),
     ("KOSDAQ_foreigner", [("라", 5)])]
  refine ⟨h.1, ?_, ?_⟩
  · exact h.2.1 "KOSDAQ" (by decide) (Or.inr (by decide))
  · exact h.2.2 "KOSPI" [("가", 1), ("나", 2)] [("나", 3), ("다", 4)]
      (by decide) (by decide) (by decide)

/-- Witness for C4: a concrete file with the date recorded in the raw
sheet and no pivot sheet yet. -/
theorem C4_witness :
    ∃ wb2 : Workbook,
      update_report "KOSPI_foreigner" [("A", 7)] ⟨2025, 1, 2⟩ healSt
        = (true, ⟨some wb2⟩)
      ∧ lookupSheet wb2 "JAN"
          = some (.rawSheet [⟨20250102, "A", .num 5⟩])
      ∧ lookupSheet wb2 "0102"
          = some (.pivotSheet (calculate_pivot [⟨20250102, "A", .num 5⟩])) :=
  C4_duplicate_date_heals "KOSPI_foreigner" [("A", 7)] ⟨2025, 1, 2⟩ healSt _
    [⟨20250102, "A", .num 5⟩] (by decide) rfl (by decide) (by decide)
    (by decide) (by decide)

end Krx
